import Mathlib

/-!
Shallow embedding of the epoch-based reclamation (EBR) module `src/ebr.rs`
of the `rust-lockfree` repository, together with theorems checking the
specification's claims about it.

Modelling conventions:
* `usize` is modelled as `Nat` on a 64-bit platform; arithmetic that wraps in
  the source (`wrapping_add`, release-mode `+`) is taken modulo `2^64`.
* Pointers and deleter function pointers are opaque and modelled as `Nat`
  identifiers; "invoking the deleter on a pointer" is modelled as emitting the
  corresponding `Retired` record into a list of reclamation events, in
  invocation order.
* The `panic!` in `auto_register_thread` and the `expect` in `retire` are
  modelled by an `Option` result (`none` = panic).
* The thread-local `LOCAL_DATA : Option<LocalData>` is passed explicitly, and
  the global state `GLOBAL_EBR` is passed and returned explicitly.
* Atomic loads/stores are modelled sequentially (single-thread semantics);
  the `epoch_lock` mutex has no sequential content.
-/

namespace EBR

/-- Constant `MAX_THREADS: usize = 32`. -/
def MAX_THREADS : Nat := 32

/-- The modulus of 64-bit `usize` arithmetic. -/
def USIZE_LIMIT : Nat := 2 ^ 64

/-- Constant `UNPINNED_EPOCH: usize = usize::MAX`. -/
def UNPINNED_EPOCH : Nat := USIZE_LIMIT - 1

/-- One registry slot (`struct EBRThread`): the `active` flag and the
`local_epoch` the owning thread last published. -/
structure EBRThread where
  active : Bool
  local_epoch : Nat
deriving Repr, DecidableEq

instance : Inhabited EBRThread := ⟨⟨false, 0⟩⟩

/-- Record `struct Retired`: the retired pointer, its deleter (both opaque `Nat`
identifiers here), and the epoch recorded at retirement. -/
structure Retired where
  ptr : Nat
  deleter : Nat
  epoch : Nat
deriving Repr, DecidableEq

/-- Record `struct LocalData`: the thread's registry slot index and its private
garbage queue (`VecDeque<Retired>`, front at the head of the list). -/
structure LocalData where
  index : Nat
  local_garbage : List Retired
deriving Repr, DecidableEq

/-- Record `struct GlobalEBR`: the global epoch counter and the fixed slot array
(kept as a list, always of length `MAX_THREADS` in reachable states).
The `epoch_lock` mutex has no sequential content and is omitted. -/
structure GlobalEBR where
  global_epoch : Nat
  threads : List EBRThread
deriving Repr, DecidableEq

/-- The state `GLOBAL_EBR` is lazily initialised to: epoch `0`, all
`MAX_THREADS` slots inactive with `local_epoch = UNPINNED_EPOCH`. -/
def initGlobal : GlobalEBR :=
  { global_epoch := 0
    threads := List.replicate MAX_THREADS ⟨false, UNPINNED_EPOCH⟩ }

/-- Record `struct Guard { index, epoch }`.  `Guard::epoch()` is the field
projection `Guard.epoch`. -/
structure Guard where
  index : Nat
  epoch : Nat
deriving Repr, DecidableEq

/-- Dropping a guard (`impl Drop for Guard`): store `UNPINNED_EPOCH` into the guard's slot. -/
def Guard.drop (gd : Guard) (g : GlobalEBR) : GlobalEBR :=
  let thr := g.threads.getD gd.index default
  { g with threads := g.threads.set gd.index { thr with local_epoch := UNPINNED_EPOCH } }

/-- The body of the `for i in 0..MAX_THREADS` loop of `auto_register_thread`,
over the list of remaining indices.  At index `i`: compare-and-swap `active`
from `false` to `true` and, on success, store `local_epoch := UNPINNED_EPOCH`
(the two writes to slot `i` are composed into one record update) and return
`i`; otherwise continue.  The empty list is the fallen-through loop, i.e. the
`panic!` in the source. -/
def register_loop (g : GlobalEBR) : List Nat → Option (Nat × GlobalEBR)
  | [] => none
  | i :: rest =>
    let thr := g.threads.getD i default
    if thr.active = false then
      some (i, { g with threads := g.threads.set i ⟨true, UNPINNED_EPOCH⟩ })
    else
      register_loop g rest

/-- Function `auto_register_thread()`: scan slots `0..MAX_THREADS` once; on success
build the fresh `LocalData` (claimed index, empty garbage) stored into the
thread-local; `none` models the `panic!("No free slot ...")`. -/
def auto_register_thread (g : GlobalEBR) : Option (Nat × GlobalEBR × LocalData) :=
  match register_loop g (List.range MAX_THREADS) with
  | some (i, g') => some (i, g', { index := i, local_garbage := [] })
  | none => none

/-- Function `pin()`: register the thread first if it has no `LocalData` (propagating
the registration panic), then load `global_epoch`, store it into the thread's
slot, and return the `Guard { index, epoch }`. -/
def pin (g : GlobalEBR) (ld : Option LocalData) :
    Option (GlobalEBR × LocalData × Guard) :=
  let registered : Option (GlobalEBR × LocalData) :=
    match ld with
    | some d => some (g, d)
    | none =>
      match auto_register_thread g with
      | none => none
      | some (_, g1, d) => some (g1, d)
  match registered with
  | none => none
  | some (g1, d) =>
    let global_epoch := g1.global_epoch
    let thr := g1.threads.getD d.index default
    some ({ g1 with threads := g1.threads.set d.index { thr with local_epoch := global_epoch } },
          d,
          { index := d.index, epoch := global_epoch })

/-- The stale-pin test of the advancement scan, for one slot value `le`
against the current epoch: `le != UNPINNED_EPOCH && le < cur_epoch`. -/
def stale_check (le cur : Nat) : Bool :=
  decide (le ≠ UNPINNED_EPOCH) && decide (le < cur)

/-- The scan `for i in 0..MAX_THREADS` of `attempt_advance_epoch`: `true` iff
some slot is `active` and pinned strictly below `cur` (the early `return`
branch of the source loop). -/
def scan_finds_stale (g : GlobalEBR) (cur : Nat) : Bool :=
  (List.range MAX_THREADS).any fun i =>
    let thr := g.threads.getD i default
    thr.active && stale_check thr.local_epoch cur

/-- The reclamation test on one garbage item: `r.epoch + 1 < new_epoch`,
with the release-mode wrapping `usize` addition. -/
def reclaim_check (epoch new_epoch : Nat) : Bool :=
  decide ((epoch + 1) % USIZE_LIMIT < new_epoch)

/-- The in-place removal loop of `attempt_advance_epoch` (`while i < len`:
remove and delete item `i` if `reclaim_check`, else `i += 1`), rendered as a
left-to-right pass returning (remaining queue, deleter-invocation events in
order).  Removing at the cursor and not advancing it is exactly "drop this
element and continue with the rest". -/
def reclaim_loop (new_epoch : Nat) : List Retired → List Retired × List Retired
  | [] => ([], [])
  | r :: rest =>
    let (rem, freed) := reclaim_loop new_epoch rest
    if reclaim_check r.epoch new_epoch then
      (rem, r :: freed)
    else
      (r :: rem, freed)

/-- Function `attempt_advance_epoch(ld)`: under the epoch lock, load `cur`, scan all
slots; abort (no state change, nothing freed) if a stale pinned slot is
found; otherwise store `new = cur.wrapping_add(1)` and run the reclamation
sweep over the calling thread's own garbage. -/
def attempt_advance_epoch (g : GlobalEBR) (ld : LocalData) :
    GlobalEBR × LocalData × List Retired :=
  let cur_epoch := g.global_epoch
  if scan_finds_stale g cur_epoch then
    (g, ld, [])
  else
    let new_epoch := (cur_epoch + 1) % USIZE_LIMIT
    let (rem, freed) := reclaim_loop new_epoch ld.local_garbage
    ({ g with global_epoch := new_epoch }, { ld with local_garbage := rem }, freed)

/-- Function `retire(ptr, deleter, guard)`: append `Retired { ptr, deleter, epoch :=
guard.epoch }` at the back of the local garbage queue; if the queue length
has reached 64, call `attempt_advance_epoch`.  The caller's `LocalData` is
required (the source `expect`s it). -/
def retire (g : GlobalEBR) (ld : LocalData) (ptr deleter : Nat) (gd : Guard) :
    GlobalEBR × LocalData × List Retired :=
  let r : Retired := { ptr := ptr, deleter := deleter, epoch := gd.epoch }
  let ld' : LocalData := { ld with local_garbage := ld.local_garbage ++ [r] }
  if 64 ≤ ld'.local_garbage.length then
    attempt_advance_epoch g ld'
  else
    (g, ld', [])

/-- A slot array with every slot inactive and unpinned (the initial array). -/
def allInactive : List EBRThread := List.replicate MAX_THREADS ⟨false, UNPINNED_EPOCH⟩

/-- Concrete state: global epoch `5`, no thread active. -/
def gFive : GlobalEBR := { global_epoch := 5, threads := allInactive }

/-- Concrete state: global epoch `1` and slot `0` active, pinned at epoch `0`
(a stale pin that blocks advancement). -/
def gStale : GlobalEBR := { global_epoch := 1, threads := allInactive.set 0 ⟨true, 0⟩ }

/-- Concrete state: every slot active (the registry is exhausted). -/
def gAllActive : GlobalEBR :=
  { global_epoch := 0, threads := List.replicate MAX_THREADS ⟨true, UNPINNED_EPOCH⟩ }

/-- Concrete state: the global epoch sits at the wrap boundary `usize::MAX`,
no thread active. -/
def gMax : GlobalEBR := { global_epoch := UNPINNED_EPOCH, threads := allInactive }

/-- Concrete state: `initGlobal` after `auto_register_thread` has claimed
slot `0`. -/
def gRegistered0 : GlobalEBR :=
  { global_epoch := 0, threads := allInactive.set 0 ⟨true, UNPINNED_EPOCH⟩ }

/-- Concrete local data: slot `0`, empty garbage queue. -/
def ldEmpty : LocalData := { index := 0, local_garbage := [] }

/-- Concrete local data: four retired items, at epochs `0`, `3`, `4`, `5`. -/
def ldSample : LocalData :=
  { index := 0, local_garbage := [⟨100, 1, 0⟩, ⟨101, 1, 3⟩, ⟨102, 1, 4⟩, ⟨103, 1, 5⟩] }

/-- Concrete local data: sixty-three retired items (one short of the
high-water mark). -/
def ldSixtyThree : LocalData := { index := 0, local_garbage := List.replicate 63 ⟨200, 1, 0⟩ }

/-- The drain loop of `unregister_thread` (`while let Some(r) = pop_front`):
the sequence of deleter invocations, front to back. -/
def drain_loop : List Retired → List Retired
  | [] => []
  | r :: rest => r :: drain_loop rest

/-- Function `unregister_thread()`: if the thread has a `LocalData`, take it, store
`active := false` and `local_epoch := UNPINNED_EPOCH` into its slot (two
stores composed into one record update), and drain the whole garbage queue;
otherwise do nothing. -/
def unregister_thread (g : GlobalEBR) (ld : Option LocalData) :
    GlobalEBR × Option LocalData × List Retired :=
  match ld with
  | none => (g, none, [])
  | some data =>
    ({ g with threads := g.threads.set data.index ⟨false, UNPINNED_EPOCH⟩ },
     none,
     drain_loop data.local_garbage)

/-- One transition of the module: some thread performs one public operation
(or the internal advancement) on the global state, with arbitrary arguments
and thread-local data.  Used to state monotonicity of the global epoch. -/
inductive Step : GlobalEBR → GlobalEBR → Prop where
  | registered (g : GlobalEBR) (i : Nat) (g' : GlobalEBR) (d : LocalData) :
      auto_register_thread g = some (i, g', d) → Step g g'
  | pinned (g : GlobalEBR) (ld : Option LocalData) (g' : GlobalEBR) (d : LocalData) (gd : Guard) :
      pin g ld = some (g', d, gd) → Step g g'
  | dropped (g : GlobalEBR) (gd : Guard) : Step g (Guard.drop gd g)
  | retired (g : GlobalEBR) (ld : LocalData) (ptr deleter : Nat) (gd : Guard) :
      Step g (retire g ld ptr deleter gd).1
  | advanced (g : GlobalEBR) (ld : LocalData) : Step g (attempt_advance_epoch g ld).1
  | unregistered (g : GlobalEBR) (ld : Option LocalData) : Step g (unregister_thread g ld).1

/-- A transition taken while the global epoch is below the wrap boundary
`usize::MAX`. -/
def NoWrapStep (g g' : GlobalEBR) : Prop :=
  Step g g' ∧ g.global_epoch < UNPINNED_EPOCH

/-! ## Helper lemmas -/

theorem getD_set_self {α : Type} [Inhabited α] (l : List α) (i : Nat) (a : α)
    (h : i < l.length) : (l.set i a).getD i default = a := by
  simp [List.getD_eq_getElem?_getD, List.getElem?_set_eq_of_lt a h]

theorem drain_loop_eq (l : List Retired) : drain_loop l = l := by
  induction l with
  | nil => rfl
  | cons r rest ih => simp [drain_loop, ih]

theorem reclaim_loop_eq_filter (n : Nat) (l : List Retired) :
    reclaim_loop n l =
      (l.filter (fun r => !reclaim_check r.epoch n),
       l.filter (fun r => reclaim_check r.epoch n)) := by
  induction l with
  | nil => rfl
  | cons r rest ih =>
    simp only [reclaim_loop, ih, List.filter_cons]
    by_cases h : reclaim_check r.epoch n = true
    · simp [h]
    · simp [h]

/-! ## Claim theorems -/

/-- C10: if the calling thread has no per-thread context (never registered,
or already unregistered), `unregister_thread` is a no-op: the registry is not
written, no deleter is invoked, the context stays absent, and the function is
total (no panic). -/
theorem ebr_C10_unregister_noop (g : GlobalEBR) :
    unregister_thread g none = (g, none, []) := rfl

/-- C3: if some active slot is pinned (not `UNPINNED_EPOCH`) strictly below
the current global epoch, `attempt_advance_epoch` aborts with no state
change: the global state and the caller's garbage are returned untouched and
no deleter is invoked; the return type carries no error to report. -/
theorem ebr_C3_advance_aborts_on_stale (g : GlobalEBR) (ld : LocalData)
    (h : ∃ i < MAX_THREADS, (g.threads.getD i default).active = true ∧
          (g.threads.getD i default).local_epoch ≠ UNPINNED_EPOCH ∧
          (g.threads.getD i default).local_epoch < g.global_epoch) :
    attempt_advance_epoch g ld = (g, ld, []) := by
  obtain ⟨i, hi, ha, hne, hlt⟩ := h
  have hscan : scan_finds_stale g g.global_epoch = true := by
    simp only [scan_finds_stale, List.any_eq_true, List.mem_range, stale_check,
      Bool.and_eq_true, decide_eq_true_eq]
    exact ⟨i, hi, ha, hne, hlt⟩
  simp [attempt_advance_epoch, hscan]

/-- Witness for C3: with the global epoch at `1` and slot `0` active pinned
at epoch `0`, an advancement attempt leaves everything unchanged. -/
theorem ebr_C3_witness :
    attempt_advance_epoch gStale ldSample = (gStale, ldSample, []) :=
  ebr_C3_advance_aborts_on_stale gStale ldSample
    ⟨0, by decide, by decide, by decide, by decide⟩

/-- C6: after `unregister_thread` on a thread with context `data`, the
thread's slot reads `active = false` and `local_epoch = UNPINNED_EPOCH`, the
per-thread context is gone (so its garbage sequence is empty), and the
deleter of every item that was in the sequence has been invoked, in order,
regardless of each item's retirement epoch. -/
theorem ebr_C6_unregister_drains (g : GlobalEBR) (data : LocalData)
    (h : data.index < g.threads.length) :
    (unregister_thread g (some data)).1.threads.getD data.index default =
        ⟨false, UNPINNED_EPOCH⟩ ∧
    (unregister_thread g (some data)).2.1 = none ∧
    (unregister_thread g (some data)).2.2 = data.local_garbage :=
  ⟨getD_set_self _ _ _ h, rfl, drain_loop_eq _⟩

/-- Witness for C6 at a concrete registered thread with four garbage items. -/
theorem ebr_C6_witness :
    (unregister_thread gStale (some ldSample)).1.threads.getD ldSample.index default =
        ⟨false, UNPINNED_EPOCH⟩ ∧
    (unregister_thread gStale (some ldSample)).2.1 = none ∧
    (unregister_thread gStale (some ldSample)).2.2 = ldSample.local_garbage :=
  ebr_C6_unregister_drains gStale ldSample (by decide)

/-- C9: releasing a guard (`Guard.drop`) stores `UNPINNED_EPOCH` into the
slot whose index the guard carries, so that slot then reads `UNPINNED_EPOCH`;
`pin()` on a registered thread returns the guard holding the thread's slot
index and the `global_epoch` value read at pin time (the value the field
accessor `Guard.epoch`, i.e. `Guard::epoch()`, returns), after publishing
that value into the slot. -/
theorem ebr_C9_guard_release_and_pin (g : GlobalEBR) (gd : Guard) (d : LocalData)
    (hi : gd.index < g.threads.length) (hd : d.index < g.threads.length) :
    ((Guard.drop gd g).threads.getD gd.index default).local_epoch = UNPINNED_EPOCH ∧
    pin g (some d) =
      some ({ g with threads := g.threads.set d.index ({ g.threads.getD d.index default with local_epoch := g.global_epoch }) },
            d,
            { index := d.index, epoch := g.global_epoch }) ∧
    ((g.threads.set d.index
        { g.threads.getD d.index default with local_epoch := g.global_epoch }).getD
        d.index default).local_epoch = g.global_epoch := by
  refine ⟨?_, rfl, ?_⟩
  · rw [Guard.drop]
    rw [getD_set_self _ _ _ hi]
  · rw [getD_set_self _ _ _ hd]

/-- Witness for C9 at a concrete state: dropping the guard for slot `0`
unpins slot `0`, and pinning with the slot-`0` context returns the guard
`{ index := 0, epoch := 5 }`. -/
theorem ebr_C9_witness :
    ((Guard.drop ⟨0, 5⟩ gFive).threads.getD 0 default).local_epoch = UNPINNED_EPOCH ∧
    pin gFive (some ldEmpty) =
      some ({ gFive with threads := gFive.threads.set ldEmpty.index ({ gFive.threads.getD ldEmpty.index default with local_epoch := gFive.global_epoch }) },
            ldEmpty,
            { index := ldEmpty.index, epoch := gFive.global_epoch }) :=
  ⟨(ebr_C9_guard_release_and_pin gFive ⟨0, 5⟩ ldEmpty (by decide) (by decide)).1,
   (ebr_C9_guard_release_and_pin gFive ⟨0, 5⟩ ldEmpty (by decide) (by decide)).2.1⟩

/-- C4: `retire(ptr, deleter, guard)` appends an item recording `ptr`,
`deleter` and the tag epoch `guard.epoch` at the back of the calling thread's
garbage queue (insertion order = retirement order), and it calls
`attempt_advance_epoch` exactly when the queue length after the append has
reached the high-water mark of 64 entries (otherwise the state is returned
with nothing freed and no advancement attempt). -/
theorem ebr_C4_retire_appends_and_triggers (g : GlobalEBR) (ld : LocalData)
    (ptr deleter : Nat) (gd : Guard) :
    (ld.local_garbage.length + 1 < 64 →
        retire g ld ptr deleter gd =
          (g, { ld with local_garbage := ld.local_garbage ++ [⟨ptr, deleter, gd.epoch⟩] },
           [])) ∧
    (64 ≤ ld.local_garbage.length + 1 →
        retire g ld ptr deleter gd =
          attempt_advance_epoch g
            { ld with local_garbage := ld.local_garbage ++ [⟨ptr, deleter, gd.epoch⟩] }) := by
  constructor <;> intro h <;> simp only [retire]
  · rw [if_neg]
    simp only [List.length_append, List.length_cons, List.length_nil]
    omega
  · rw [if_pos]
    simp only [List.length_append, List.length_cons, List.length_nil]
    omega

/-- Witness for C4: retiring onto an empty queue appends without triggering;
retiring onto a 63-item queue appends and triggers the advancement attempt. -/
theorem ebr_C4_witness :
    retire gFive ldEmpty 7 1 ⟨0, 5⟩ =
      (gFive, { ldEmpty with
                  local_garbage := ldEmpty.local_garbage ++ [⟨7, 1, (⟨0, 5⟩ : Guard).epoch⟩] },
       []) ∧
    retire gFive ldSixtyThree 7 1 ⟨0, 5⟩ =
      attempt_advance_epoch gFive
        { ldSixtyThree with
            local_garbage := ldSixtyThree.local_garbage ++ [⟨7, 1, (⟨0, 5⟩ : Guard).epoch⟩] } :=
  ⟨(ebr_C4_retire_appends_and_triggers gFive ldEmpty 7 1 ⟨0, 5⟩).1 (by decide),
   (ebr_C4_retire_appends_and_triggers gFive ldSixtyThree 7 1 ⟨0, 5⟩).2 (by decide)⟩

/-- C2: when the advancement scan finds no stale pinned slot, the attempt
stores the new epoch and then invokes the deleter on and removes from the
calling thread's garbage queue exactly those items whose
`retirement_epoch + 1 < new`, in queue order, while every item with
`retirement_epoch + 1 ≥ new` remains, in order.  (The hypothesis that no
stored retirement epoch sits at `usize::MAX` keeps the source's `epoch + 1`
addition from wrapping, so the plain comparison of the claim applies.) -/
theorem ebr_C2_advance_reclaims_exactly (g : GlobalEBR) (ld : LocalData)
    (hscan : scan_finds_stale g g.global_epoch = false)
    (hep : ∀ r ∈ ld.local_garbage, r.epoch + 1 < USIZE_LIMIT) :
    attempt_advance_epoch g ld =
      ({ g with global_epoch := (g.global_epoch + 1) % USIZE_LIMIT },
       { ld with local_garbage := ld.local_garbage.filter (fun r => !decide (r.epoch + 1 < (g.global_epoch + 1) % USIZE_LIMIT)) },
       ld.local_garbage.filter
         (fun r => decide (r.epoch + 1 < (g.global_epoch + 1) % USIZE_LIMIT))) := by
  have hf1 : ld.local_garbage.filter
        (fun r => !reclaim_check r.epoch ((g.global_epoch + 1) % USIZE_LIMIT)) =
      ld.local_garbage.filter
        (fun r => !decide (r.epoch + 1 < (g.global_epoch + 1) % USIZE_LIMIT)) := by
    apply List.filter_congr
    intro r hr
    simp [reclaim_check, Nat.mod_eq_of_lt (hep r hr)]
  have hf2 : ld.local_garbage.filter
        (fun r => reclaim_check r.epoch ((g.global_epoch + 1) % USIZE_LIMIT)) =
      ld.local_garbage.filter
        (fun r => decide (r.epoch + 1 < (g.global_epoch + 1) % USIZE_LIMIT)) := by
    apply List.filter_congr
    intro r hr
    simp [reclaim_check, Nat.mod_eq_of_lt (hep r hr)]
  simp only [attempt_advance_epoch, hscan, Bool.false_eq_true, if_false,
    reclaim_loop_eq_filter]
  rw [hf1, hf2]

/-- Witness for C2: advancing from epoch `5` with garbage at epochs
`0, 3, 4, 5` frees the first three (epochs `0, 3, 4`) in order and keeps the
item retired at epoch `5`. -/
theorem ebr_C2_witness :
    attempt_advance_epoch gFive ldSample =
      ({ global_epoch := 6, threads := allInactive },
       { index := 0, local_garbage := [⟨103, 1, 5⟩] },
       [⟨100, 1, 0⟩, ⟨101, 1, 3⟩, ⟨102, 1, 4⟩]) := by
  have h := ebr_C2_advance_reclaims_exactly gFive ldSample (by decide) (by decide)
  exact h.trans (by decide)

theorem register_loop_eq_none_iff (g : GlobalEBR) (is : List Nat) :
    register_loop g is = none ↔ ∀ i ∈ is, (g.threads.getD i default).active = true := by
  induction is with
  | nil => simp [register_loop]
  | cons i rest ih =>
    have hstep : register_loop g (i :: rest) =
        (if (g.threads.getD i default).active = false then
          some (i, { g with threads := g.threads.set i ⟨true, UNPINNED_EPOCH⟩ })
        else register_loop g rest) := rfl
    rw [hstep, List.forall_mem_cons]
    by_cases h : (g.threads.getD i default).active = false
    · rw [if_pos h]
      constructor
      · intro hc
        exact Option.noConfusion hc
      · intro hall
        rw [hall.1] at h
        exact Bool.noConfusion h
    · rw [if_neg h]
      have h' : (g.threads.getD i default).active = true := by
        cases hb : (g.threads.getD i default).active
        · exact absurd hb h
        · rfl
      rw [ih, h']
      simp

theorem register_loop_some_spec (g : GlobalEBR) (is : List Nat) (i : Nat) (g' : GlobalEBR)
    (h : register_loop g is = some (i, g')) :
    i ∈ is ∧ (g.threads.getD i default).active = false ∧
      g' = { g with threads := g.threads.set i ⟨true, UNPINNED_EPOCH⟩ } := by
  induction is with
  | nil => simp [register_loop] at h
  | cons j rest ih =>
    simp only [register_loop] at h
    by_cases hj : (g.threads.getD j default).active = false
    · rw [if_pos hj] at h
      obtain ⟨h1, h2⟩ := Prod.mk.injEq .. ▸ Option.some.injEq .. ▸ h
      exact h1 ▸ ⟨List.mem_cons_self j rest, h1 ▸ hj, h2.symm⟩
    · rw [if_neg hj] at h
      obtain ⟨h1, h2, h3⟩ := ih h
      exact ⟨List.mem_cons_of_mem j h1, h2, h3⟩

/-- C5: `auto_register_thread` scans the slot array in a single pass; it
fails (the `panic!`, modelled by `none`) exactly when every one of the
`MAX_THREADS` slots is already active — the only failure mode — and any
successful return claims a previously inactive slot `i`, setting it to
`active = true` with `local_epoch = UNPINNED_EPOCH`, leaving all other slots
untouched, and hands back index `i` with a fresh empty garbage queue. -/
theorem ebr_C5_register_single_pass (g : GlobalEBR) :
    (auto_register_thread g = none ↔
        ∀ i < MAX_THREADS, (g.threads.getD i default).active = true) ∧
    ∀ i g' d, auto_register_thread g = some (i, g', d) →
      i < MAX_THREADS ∧ (g.threads.getD i default).active = false ∧
      g' = { g with threads := g.threads.set i ⟨true, UNPINNED_EPOCH⟩ } ∧
      d = { index := i, local_garbage := [] } := by
  constructor
  · rw [auto_register_thread]
    cases hr : register_loop g (List.range MAX_THREADS) with
    | none =>
      simp only [true_iff, eq_self_iff_true]
      have := (register_loop_eq_none_iff g (List.range MAX_THREADS)).mp hr
      intro i hi
      exact this i (List.mem_range.mpr hi)
    | some p =>
      obtain ⟨j, g2⟩ := p
      have hspec := register_loop_some_spec g (List.range MAX_THREADS) j g2 hr
      constructor
      · intro hco
        exact absurd hco (by simp)
      · intro hall
        have hj := hall j (List.mem_range.mp hspec.1)
        rw [hspec.2.1] at hj
        exact Bool.noConfusion hj
  · intro i g' d h
    rw [auto_register_thread] at h
    cases hr : register_loop g (List.range MAX_THREADS) with
    | none => rw [hr] at h; exact absurd h (by simp)
    | some p =>
      obtain ⟨j, g2⟩ := p
      rw [hr] at h
      have hspec := register_loop_some_spec g (List.range MAX_THREADS) j g2 hr
      have h' : j = i ∧ g2 = g' ∧ ({ index := j, local_garbage := [] } : LocalData) = d := by
        simpa using h
      obtain ⟨hji, hg2, hd⟩ := h'
      subst hji; subst hg2; subst hd
      exact ⟨List.mem_range.mp hspec.1, hspec.2.1, hspec.2.2, rfl⟩

/-- Witness for C5: on the exhausted registry every slot is active and
registration fails; on the initial registry, registration claims slot `0`. -/
theorem ebr_C5_witness :
    auto_register_thread gAllActive = none ∧
    (0 < MAX_THREADS ∧ (initGlobal.threads.getD 0 default).active = false ∧
      gRegistered0 = { initGlobal with threads := initGlobal.threads.set 0 ⟨true, UNPINNED_EPOCH⟩ } ∧
      ({ index := 0, local_garbage := [] } : LocalData) = { index := 0, local_garbage := [] }) :=
  ⟨(ebr_C5_register_single_pass gAllActive).1.mpr (by decide),
   (ebr_C5_register_single_pass initGlobal).2 0 gRegistered0 { index := 0, local_garbage := [] } (by decide)⟩

theorem auto_register_global_epoch (g : GlobalEBR) (i : Nat) (g1 : GlobalEBR) (d : LocalData)
    (h : auto_register_thread g = some (i, g1, d)) : g1.global_epoch = g.global_epoch := by
  rw [auto_register_thread] at h
  cases hr : register_loop g (List.range MAX_THREADS) with
  | none => rw [hr] at h; exact Option.noConfusion h
  | some p =>
    obtain ⟨j, g2⟩ := p
    rw [hr] at h
    have h' : j = i ∧ g2 = g1 ∧ ({ index := j, local_garbage := [] } : LocalData) = d := by
      simpa using h
    have hspec := register_loop_some_spec g (List.range MAX_THREADS) j g2 hr
    rw [← h'.2.1, hspec.2.2]

theorem pin_some_spec (g : GlobalEBR) (d0 : LocalData) (g' : GlobalEBR) (d : LocalData)
    (gd : Guard) (h : pin g (some d0) = some (g', d, gd)) :
    g'.global_epoch = g.global_epoch ∧ gd.epoch = g.global_epoch := by
  have h' : ({ g with threads := g.threads.set d0.index ({ g.threads.getD d0.index default with local_epoch := g.global_epoch }) } : GlobalEBR) = g' ∧ d0 = d ∧ ({ index := d0.index, epoch := g.global_epoch } : Guard) = gd := by
    simpa [pin] using h
  refine ⟨?_, ?_⟩
  · rw [← h'.1]
  · rw [← h'.2.2]

theorem pin_global_epoch (g : GlobalEBR) (ld : Option LocalData) (g' : GlobalEBR)
    (d : LocalData) (gd : Guard) (h : pin g ld = some (g', d, gd)) :
    g'.global_epoch = g.global_epoch := by
  cases ld with
  | some d0 => exact (pin_some_spec g d0 g' d gd h).1
  | none =>
    cases hr : auto_register_thread g with
    | none =>
      have hnone : pin g none = none := by simp [pin, hr]
      rw [hnone] at h
      exact Option.noConfusion h
    | some p =>
      obtain ⟨i, g1, d1⟩ := p
      have hg1 := auto_register_global_epoch g i g1 d1 hr
      have h' : ({ g1 with threads := g1.threads.set d1.index ({ g1.threads.getD d1.index default with local_epoch := g1.global_epoch }) } : GlobalEBR) = g' ∧ d1 = d ∧ ({ index := d1.index, epoch := g1.global_epoch } : Guard) = gd := by
        simpa [pin, hr] using h
      rw [← h'.1]
      exact hg1

theorem advance_global_epoch_ge (g : GlobalEBR) (ld : LocalData)
    (hw : g.global_epoch < UNPINNED_EPOCH) :
    g.global_epoch ≤ (attempt_advance_epoch g ld).1.global_epoch := by
  by_cases hs : scan_finds_stale g g.global_epoch = true
  · simp [attempt_advance_epoch, hs]
  · have hs' : scan_finds_stale g g.global_epoch = false := Bool.eq_false_iff.mpr hs
    simp only [attempt_advance_epoch, hs', Bool.false_eq_true, if_false,
      reclaim_loop_eq_filter]
    show g.global_epoch ≤ (g.global_epoch + 1) % USIZE_LIMIT
    have hL : UNPINNED_EPOCH + 1 = USIZE_LIMIT := by decide
    have hlt : g.global_epoch + 1 < USIZE_LIMIT := by omega
    rw [Nat.mod_eq_of_lt hlt]
    exact Nat.le_succ _

theorem retire_global_epoch_ge (g : GlobalEBR) (ld : LocalData) (ptr deleter : Nat)
    (gd : Guard) (hw : g.global_epoch < UNPINNED_EPOCH) :
    g.global_epoch ≤ (retire g ld ptr deleter gd).1.global_epoch := by
  simp only [retire]
  split
  · exact advance_global_epoch_ge g _ hw
  · exact le_rfl

theorem no_wrap_step_epoch_mono (g g' : GlobalEBR) (h : NoWrapStep g g') :
    g.global_epoch ≤ g'.global_epoch := by
  obtain ⟨hs, hw⟩ := h
  cases hs with
  | registered i g2 d hreg => exact (auto_register_global_epoch _ _ _ _ hreg).ge
  | pinned ld g2 d gd hpin => exact (pin_global_epoch _ _ _ _ _ hpin).ge
  | dropped gd => exact le_rfl
  | retired ld ptr deleter gd => exact retire_global_epoch_ge _ _ _ _ _ hw
  | advanced ld => exact advance_global_epoch_ge _ _ hw
  | unregistered ld => cases ld <;> exact le_rfl

theorem no_wrap_steps_epoch_mono (g g' : GlobalEBR)
    (h : Relation.ReflTransGen NoWrapStep g g') : g.global_epoch ≤ g'.global_epoch := by
  induction h with
  | refl => exact le_rfl
  | tail _ hbc ih => exact le_trans ih (no_wrap_step_epoch_mono _ _ hbc)

/-- C7 counterexample: at the wrap boundary a genuine program step (a
successful advancement) sends the global epoch from `usize::MAX` down to `0`,
so the counter is not monotonically non-decreasing as claimed. -/
theorem ebr_C7_counterexample :
    Step gMax (attempt_advance_epoch gMax ldEmpty).1 ∧
    (attempt_advance_epoch gMax ldEmpty).1.global_epoch < gMax.global_epoch :=
  ⟨Step.advanced gMax ldEmpty, by decide⟩

/-- C7 (amended): the global epoch starts at zero; across any sequence of
operations taken while the counter is below the wrap boundary `usize::MAX`
it is non-decreasing; and a pin's guard carries the `global_epoch` read at
pin time, so a guard from a fresh `pin()` issued after such a sequence holds
an epoch ≥ that of a guard obtained before it. -/
theorem ebr_C7_epoch_monotone_without_wrap :
    initGlobal.global_epoch = 0 ∧
    (∀ g g', Relation.ReflTransGen NoWrapStep g g' → g.global_epoch ≤ g'.global_epoch) ∧
    (∀ g d0 g1 d1 gd1 gm d2 g3 d3 gd3,
        pin g (some d0) = some (g1, d1, gd1) →
        Relation.ReflTransGen NoWrapStep g1 gm →
        pin gm (some d2) = some (g3, d3, gd3) → gd1.epoch ≤ gd3.epoch) := by
  refine ⟨rfl, fun g g' h => no_wrap_steps_epoch_mono g g' h, ?_⟩
  intro g d0 g1 d1 gd1 gm d2 g3 d3 gd3 hp1 hsteps hp2
  have e1 := pin_some_spec g d0 g1 d1 gd1 hp1
  have e2 := pin_some_spec gm d2 g3 d3 gd3 hp2
  calc gd1.epoch = g.global_epoch := e1.2
    _ = g1.global_epoch := e1.1.symm
    _ ≤ gm.global_epoch := no_wrap_steps_epoch_mono _ _ hsteps
    _ = gd3.epoch := e2.2.symm

/-- Witness for C7 (amended), on a concrete one-step trace: a successful
advancement from the initial state does not decrease the epoch. -/
theorem ebr_C7_witness :
    initGlobal.global_epoch ≤ (attempt_advance_epoch initGlobal ldEmpty).1.global_epoch :=
  ebr_C7_epoch_monotone_without_wrap.2.1 initGlobal _
    (Relation.ReflTransGen.single ⟨Step.advanced initGlobal ldEmpty, by decide⟩)

/-- C8 counterexample: the reclaim comparison is not relative/modular. Two
configurations at the same modular epoch distance (distance 4: item epoch `2`
against new epoch `6`, and item epoch `2^64 - 4` against the post-wrap new
epoch `0`) are judged differently, because the code compares the wrapped
values with an absolute `<`. -/
theorem ebr_C8_counterexample :
    (6 + (USIZE_LIMIT - 2)) % USIZE_LIMIT = (0 + (USIZE_LIMIT - (USIZE_LIMIT - 4))) % USIZE_LIMIT ∧
    reclaim_check 2 6 = true ∧ reclaim_check (USIZE_LIMIT - 4) 0 = false := by
  decide

/-- C8 (amended): a successful advancement stores `new = (cur + 1) mod 2^64`,
wrapping at the range boundary rather than failing; the stale-pin check and
the reclaim condition are total comparisons of the wrapped values — still
defined when the counter is at the boundary — but absolute rather than
modular: against the post-wrap epoch `0`, the stale check rejects no slot and
the reclaim condition accepts no item. -/
theorem ebr_C8_advance_wraps (g : GlobalEBR) (ld : LocalData)
    (hscan : scan_finds_stale g g.global_epoch = false) :
    (attempt_advance_epoch g ld).1.global_epoch = (g.global_epoch + 1) % USIZE_LIMIT ∧
    (∀ le, stale_check le 0 = false) ∧
    (∀ e, reclaim_check e 0 = false) := by
  refine ⟨?_, fun le => ?_, fun e => ?_⟩
  · simp [attempt_advance_epoch, hscan, reclaim_loop_eq_filter]
  · simp [stale_check]
  · simp [reclaim_check]

/-- Witness for C8 (amended) at the wrap boundary: advancing from
`usize::MAX` stores `(usize::MAX + 1) mod 2^64 = 0`. -/
theorem ebr_C8_witness :
    (attempt_advance_epoch gMax ldEmpty).1.global_epoch =
      (gMax.global_epoch + 1) % USIZE_LIMIT :=
  (ebr_C8_advance_wraps gMax ldEmpty (by decide)).1

end EBR
